import Mathlib

/-!
Verification development for the mail-merger repository.

We give a shallow embedding of the batch/retry pipeline logic of
`src/mail_generation.py` (class `EmailGenerationPipeline`), the dispatch
logic of `src/email_sender.py` (class `EmailSender`) and the resume merge
of `src/app.py`, and prove properties of these embeddings.

Remote calls are modelled by an environment argument: a function giving,
for each attempt (or each batch), the outcome the remote service produces.
Machine-level details that cannot influence the verified properties
(timestamps, log lines, the aiohttp session object) are omitted.
-/

namespace MailMerger

/-! ### Batching

`mail_generation.py` line 159-160 builds batches as
`all_payloads[i:i + self.batch_size] for i in range(0, total_leads, self.batch_size)`
and `email_sender.py` line 64-65 builds
`email_payloads[i:i + self.batch_size] for i in range(0, len(email_payloads), self.batch_size)`.
We embed the `range(0, stop, step)` iteration and the slice `l[i:i+B]`
directly.  Python `range` raises for `step = 0`; the embedding returns `[]`
in that (never exercised) case so that the function is total. -/

/-- Embedding of the index sequence of Python `range(i, stop, step)`. -/
def pyRangeGo (stop step i : Nat) : List Nat :=
  if _h : i < stop then
    if _hs : step = 0 then [] else i :: pyRangeGo stop step (i + step)
  else []
termination_by stop - i
decreasing_by omega

/-- Embedding of the batch list `[l[i:i+B] for i in range(0, len(l), B)]`
(the Python slice `l[i:i+B]` is `(l.drop i).take B`). -/
def batchesOf (l : List α) (B : Nat) : List (List α) :=
  (pyRangeGo l.length B 0).map (fun i => (l.drop i).take B)

theorem pyRangeGo_eq (stop step i : Nat) :
    pyRangeGo stop step i =
      if i < stop then (if step = 0 then [] else i :: pyRangeGo stop step (i + step))
      else [] := by
  rw [pyRangeGo]
  simp only [dite_eq_ite]

theorem pyRangeGo_shift (step d : Nat) :
    ∀ fuel stop j, stop - (j + d) ≤ fuel →
      pyRangeGo stop step (j + d) = (pyRangeGo (stop - d) step j).map (fun a => a + d) := by
  intro fuel
  induction fuel with
  | zero =>
    intro stop j hfuel
    rw [pyRangeGo_eq stop, pyRangeGo_eq (stop - d)]
    have h1 : ¬ (j + d < stop) := by omega
    have h2 : ¬ (j < stop - d) := by omega
    simp [h1, h2]
  | succ n ih =>
    intro stop j hfuel
    rw [pyRangeGo_eq stop, pyRangeGo_eq (stop - d)]
    by_cases h1 : j + d < stop
    · have h2 : j < stop - d := by omega
      by_cases hs : step = 0
      · simp [h1, h2, hs]
      · simp only [if_pos h1, if_pos h2, if_neg hs, List.map_cons]
        have harg : j + d + step = (j + step) + d := by omega
        rw [harg, ih stop (j + step) (by omega)]
    · have h2 : ¬ (j < stop - d) := by omega
      simp [h1, h2]

theorem batchesOf_nil (B : Nat) : batchesOf ([] : List α) B = [] := by
  rw [batchesOf, pyRangeGo_eq]
  simp

theorem batchesOf_cons (l : List α) (B : Nat) (hB : 1 ≤ B) (hl : l ≠ []) :
    batchesOf l B = l.take B :: batchesOf (l.drop B) B := by
  have hlen : 0 < l.length := List.length_pos.mpr hl
  have hB0 : ¬ (B = 0) := by omega
  rw [batchesOf, pyRangeGo_eq]
  rw [if_pos hlen, if_neg hB0]
  have hshift := pyRangeGo_shift B B l.length l.length 0 (by omega)
  rw [hshift, List.map_cons, List.map_map]
  simp only [List.drop_zero]
  rw [batchesOf]
  have hdl : (l.drop B).length = l.length - B := List.length_drop B l
  rw [hdl]
  congr 1
  apply List.map_congr_left
  intro a _
  simp only [Function.comp_apply]
  simp [List.drop_drop, Nat.add_comm]

/-- Combined structural facts about `batchesOf`, proved together by one
fuel-bounded induction on the input length: batch count is the ceiling
`(N + (B-1)) / B`, concatenation restores the input, every batch except
possibly the last has size exactly `B`, and every batch is nonempty of
size at most `B`. -/
theorem batchesOf_props (B : Nat) (hB : 1 ≤ B) :
    ∀ fuel (l : List α), l.length ≤ fuel →
      (batchesOf l B).length = (l.length + (B - 1)) / B ∧
      (batchesOf l B).flatten = l ∧
      (∀ b ∈ (batchesOf l B).dropLast, b.length = B) ∧
      (∀ b ∈ batchesOf l B, b.length ≤ B ∧ b ≠ []) := by
  intro fuel
  induction fuel with
  | zero =>
    intro l hl
    have hnil : l = [] := List.eq_nil_of_length_eq_zero (by omega)
    subst hnil
    rw [batchesOf_nil]
    refine ⟨?_, by simp, by simp, by simp⟩
    simp [Nat.div_eq_of_lt (show B - 1 < B by omega)]
  | succ n ih =>
    intro l hl
    by_cases hnil : l = []
    · subst hnil
      rw [batchesOf_nil]
      refine ⟨?_, by simp, by simp, by simp⟩
      simp [Nat.div_eq_of_lt (show B - 1 < B by omega)]
    · have hlen : 1 ≤ l.length := List.length_pos.mpr hnil
      have hdrop : (l.drop B).length = l.length - B := List.length_drop B l
      have ihd := ih (l.drop B) (by omega)
      obtain ⟨ih1, ih2, ih3, ih4⟩ := ihd
      rw [batchesOf_cons l B hB hnil]
      refine ⟨?_, ?_, ?_, ?_⟩
      · rw [List.length_cons, ih1, hdrop]
        by_cases hsmall : l.length ≤ B
        · have h0 : l.length - B = 0 := by omega
          rw [h0]
          rw [Nat.div_eq_of_lt (show 0 + (B - 1) < B by omega)]
          have hdiv : (l.length + (B - 1)) / B = 1 :=
            Nat.div_eq_of_lt_le (by omega) (by omega)
          omega
        · have harith : l.length - B + (B - 1) = l.length - 1 := by omega
          have harith2 : l.length + (B - 1) = (l.length - 1) + B := by omega
          rw [harith, harith2, Nat.add_div_right _ (show 0 < B by omega)]
      · rw [List.flatten_cons, ih2, List.take_append_drop]
      · intro b hb
        by_cases hrest : batchesOf (l.drop B) B = []
        · rw [hrest] at hb
          simp at hb
        · have hdropne : l.drop B ≠ [] := by
            intro hcon
            rw [hcon, batchesOf_nil] at hrest
            exact hrest rfl
          have hgt : B < l.length := by
            have := List.length_pos.mpr hdropne
            omega
          obtain ⟨x, rest, hxr⟩ := List.exists_cons_of_ne_nil hrest
          rw [hxr] at hb
          rw [List.dropLast_cons₂] at hb
          rcases List.mem_cons.mp hb with hbt | hbr
          · rw [hbt, List.length_take]
            omega
          · rw [← hxr] at hbr
            exact ih3 b (by rw [hxr]; rw [hxr] at hbr; exact hbr)
      · intro b hb
        rcases List.mem_cons.mp hb with hbt | hbr
        · subst hbt
          constructor
          · rw [List.length_take]; omega
          · apply List.length_pos.mp
            rw [List.length_take]
            omega
        · exact ih4 b hbr

/-! ### Retrying requester

Embedding of `EmailGenerationPipeline.send_request_with_retry`
(`mail_generation.py` lines 45-108).  The remote service is modelled by
`env : Nat → AttemptOutcome`, giving the outcome the `session.post` call
produces on the attempt with the given 0-based index: `ok body` stands for
HTTP 200 with JSON body `body`; `httpError s` for a response with status
`s ≠ 200`; `timeout` for `asyncio.TimeoutError`; `exc msg` for any other
exception with message `msg`.  The timestamp field of each attempt record
and the echoed payload field of each attempt record carry no information
used by any claim and are omitted from `AttemptInfo`. -/

/-- One lead payload (the fields of `payload["lead"]` that the function
reads: `lead_id`, `name`, `company`). -/
structure Payload where
  lead_id : String
  name : String
  company : String
deriving Repr, DecidableEq

/-- Outcome of one `session.post` call, chosen by the environment. -/
inductive AttemptOutcome where
  | ok (body : String)
  | httpError (status : Nat)
  | timeout
  | exc (msg : String)
deriving Repr, DecidableEq

/-- The `attempt_info` dict built per attempt (lines 65-71). -/
structure AttemptInfo where
  attempt_number : Nat
  status : String
  error : Option String
deriving Repr, DecidableEq

/-- The `detailed_result` dict (lines 53-62). -/
structure DetailedResult where
  lead_id : String
  lead_name : String
  company : String
  status : String
  attempts : List AttemptInfo
  final_result : Option String
  error : Option String
  payload : Payload
deriving Repr, DecidableEq

/-- Initial `detailed_result` built at lines 53-62. -/
def initResult (p : Payload) : DetailedResult :=
  { lead_id := p.lead_id, lead_name := p.name, company := p.company,
    status := "failed", attempts := [], final_result := none,
    error := none, payload := p }

/-- The success branch (lines 79-86): mark the attempt and the detailed
result successful, store the response body, append the attempt record,
and return. -/
def succUpdate (dr : DetailedResult) (i : Nat) (body : String) : DetailedResult :=
  { dr with status := "success", final_result := some body,
            attempts := dr.attempts ++ [⟨i + 1, "success", none⟩] }

/-- The shared failure path (lines 87-102): record the attempt with its
error message and overwrite the top-level error field. -/
def failUpdate (dr : DetailedResult) (i : Nat) (msg : String) : DetailedResult :=
  { dr with attempts := dr.attempts ++ [⟨i + 1, "failed", some msg⟩],
            error := some msg }

/-- The `for attempt in range(self.max_retries + 1)` loop (lines 64-108).
`i` is the current 0-based attempt index and `fuel` the number of retries
still allowed (`self.max_retries - attempt`; the line 104 guard
`attempt < self.max_retries` is exactly `fuel > 0`).  The three failure
arms mirror the non-200 branch, the `asyncio.TimeoutError` handler and the
generic `Exception` handler. -/
def retryGo (env : Nat → AttemptOutcome) : Nat → Nat → DetailedResult → DetailedResult
  | i, 0, dr =>
    match env i with
    | .ok body => succUpdate dr i body
    | .httpError s => failUpdate dr i ("HTTP " ++ toString s)
    | .timeout => failUpdate dr i "Timeout"
    | .exc msg => failUpdate dr i msg
  | i, fuel + 1, dr =>
    match env i with
    | .ok body => succUpdate dr i body
    | .httpError s => retryGo env (i + 1) fuel (failUpdate dr i ("HTTP " ++ toString s))
    | .timeout => retryGo env (i + 1) fuel (failUpdate dr i "Timeout")
    | .exc msg => retryGo env (i + 1) fuel (failUpdate dr i msg)

/-- Embedding of `send_request_with_retry`: run the attempt loop from
attempt index 0 with `max_retries` retries remaining on the freshly
initialised detailed result.  The embedding returns the detailed result
(the third component of the Python return tuple); the other two components
are `final_result` and whether `status` is the string success. -/
def sendRequestWithRetry (maxRetries : Nat) (env : Nat → AttemptOutcome)
    (p : Payload) : DetailedResult :=
  retryGo env 0 maxRetries (initResult p)

/-- The per-failure-arm error message, as a function of the outcome. -/
def failMsg : AttemptOutcome → String
  | .ok _ => ""
  | .httpError s => "HTTP " ++ toString s
  | .timeout => "Timeout"
  | .exc msg => msg

theorem retryGo_zero_fail (env : Nat → AttemptOutcome) (i : Nat) (dr : DetailedResult)
    (h : ∀ body, env i ≠ .ok body) :
    retryGo env i 0 dr = failUpdate dr i (failMsg (env i)) := by
  cases henv : env i with
  | ok body => exact absurd henv (h body)
  | httpError s => simp [retryGo, henv, failMsg]
  | timeout => simp [retryGo, henv, failMsg]
  | exc msg => simp [retryGo, henv, failMsg]

theorem retryGo_succ_fail (env : Nat → AttemptOutcome) (i fuel : Nat) (dr : DetailedResult)
    (h : ∀ body, env i ≠ .ok body) :
    retryGo env i (fuel + 1) dr =
      retryGo env (i + 1) fuel (failUpdate dr i (failMsg (env i))) := by
  cases henv : env i with
  | ok body => exact absurd henv (h body)
  | httpError s => simp [retryGo, henv, failMsg]
  | timeout => simp [retryGo, henv, failMsg]
  | exc msg => simp [retryGo, henv, failMsg]

theorem retryGo_ok (env : Nat → AttemptOutcome) (i fuel : Nat) (dr : DetailedResult)
    (body : String) (h : env i = .ok body) :
    retryGo env i fuel dr = succUpdate dr i body := by
  cases fuel with
  | zero => simp [retryGo, h]
  | succ n => simp [retryGo, h]

theorem succUpdate_attempts (dr : DetailedResult) (i : Nat) (body : String) :
    (succUpdate dr i body).attempts = dr.attempts ++ [⟨i + 1, "success", none⟩] := by
  simp [succUpdate]

theorem failUpdate_attempts (dr : DetailedResult) (i : Nat) (msg : String) :
    (failUpdate dr i msg).attempts = dr.attempts ++ [⟨i + 1, "failed", some msg⟩] := by
  simp [failUpdate]

/-- The attempts list grows by at least one and at most `fuel + 1`
records. -/
theorem retryGo_length_bounds (env : Nat → AttemptOutcome) :
    ∀ fuel i dr,
      dr.attempts.length + 1 ≤ (retryGo env i fuel dr).attempts.length ∧
      (retryGo env i fuel dr).attempts.length ≤ dr.attempts.length + fuel + 1 := by
  intro fuel
  induction fuel with
  | zero =>
    intro i dr
    by_cases hok : ∃ body, env i = .ok body
    · obtain ⟨body, hb⟩ := hok
      rw [retryGo_ok env i 0 dr body hb, succUpdate_attempts]
      simp
    · push_neg at hok
      rw [retryGo_zero_fail env i dr hok, failUpdate_attempts]
      simp
  | succ n ih =>
    intro i dr
    by_cases hok : ∃ body, env i = .ok body
    · obtain ⟨body, hb⟩ := hok
      rw [retryGo_ok env i (n + 1) dr body hb, succUpdate_attempts]
      simp
    · push_neg at hok
      rw [retryGo_succ_fail env i n dr hok]
      have hud := ih (i + 1) (failUpdate dr i (failMsg (env i)))
      rw [failUpdate_attempts] at hud
      simp at hud
      omega

/-- If the returned status is the string failed then every attempt ran:
the attempts list grew by exactly `fuel + 1` records. -/
theorem retryGo_failed_length (env : Nat → AttemptOutcome) :
    ∀ fuel i dr, (retryGo env i fuel dr).status = "failed" →
      (retryGo env i fuel dr).attempts.length = dr.attempts.length + fuel + 1 := by
  intro fuel
  induction fuel with
  | zero =>
    intro i dr hst
    by_cases hok : ∃ body, env i = .ok body
    · obtain ⟨body, hb⟩ := hok
      rw [retryGo_ok env i 0 dr body hb] at hst
      simp [succUpdate] at hst
    · push_neg at hok
      rw [retryGo_zero_fail env i dr hok, failUpdate_attempts]
      simp
  | succ n ih =>
    intro i dr hst
    by_cases hok : ∃ body, env i = .ok body
    · obtain ⟨body, hb⟩ := hok
      rw [retryGo_ok env i (n + 1) dr body hb] at hst
      simp [succUpdate] at hst
    · push_neg at hok
      rw [retryGo_succ_fail env i n dr hok] at hst ⊢
      have hrec := ih (i + 1) (failUpdate dr i (failMsg (env i))) hst
      rw [failUpdate_attempts] at hrec
      simp at hrec
      omega

/-- Full shape of the result when the returned status is the string
success: the attempts appended by the loop are a block of failed records
followed by exactly one success record; the success record corresponds to
an ok outcome of the environment whose body is stored in `final_result`;
the top-level error field is untouched when no failed attempt ran and
otherwise equals the error of the most recent failed record. -/
theorem retryGo_success_structure (env : Nat → AttemptOutcome) :
    ∀ fuel i dr, dr.status ≠ "success" →
      (retryGo env i fuel dr).status = "success" →
      ∃ t body,
        (retryGo env i fuel dr).attempts =
          dr.attempts ++ t ++ [⟨i + t.length + 1, "success", none⟩] ∧
        (∀ b ∈ t, b.status = "failed" ∧ b.error.isSome = true) ∧
        env (i + t.length) = AttemptOutcome.ok body ∧
        (retryGo env i fuel dr).final_result = some body ∧
        (t = [] → (retryGo env i fuel dr).error = dr.error) ∧
        (∀ b, t.getLast? = some b → (retryGo env i fuel dr).error = b.error) := by
  intro fuel
  induction fuel with
  | zero =>
    intro i dr hdr hst
    by_cases hok : ∃ body, env i = .ok body
    · obtain ⟨body, hb⟩ := hok
      rw [retryGo_ok env i 0 dr body hb]
      refine ⟨[], body, ?_, by simp, by simpa using hb, by simp [succUpdate], ?_, by simp⟩
      · simp [succUpdate]
      · intro _
        simp [succUpdate]
    · push_neg at hok
      rw [retryGo_zero_fail env i dr hok] at hst
      simp [failUpdate] at hst
      exact absurd hst hdr
  | succ n ih =>
    intro i dr hdr hst
    by_cases hok : ∃ body, env i = .ok body
    · obtain ⟨body, hb⟩ := hok
      rw [retryGo_ok env i (n + 1) dr body hb]
      refine ⟨[], body, ?_, by simp, by simpa using hb, by simp [succUpdate], ?_, by simp⟩
      · simp [succUpdate]
      · intro _
        simp [succUpdate]
    · push_neg at hok
      rw [retryGo_succ_fail env i n dr hok] at hst ⊢
      have hdr' : (failUpdate dr i (failMsg (env i))).status ≠ "success" := by
        simpa [failUpdate] using hdr
      obtain ⟨t, body, hatt, hmem, henv, hfin, herr0, herrl⟩ :=
        ih (i + 1) (failUpdate dr i (failMsg (env i))) hdr' hst
      refine ⟨⟨i + 1, "failed", some (failMsg (env i))⟩ :: t, body, ?_, ?_, ?_, hfin, ?_, ?_⟩
      · rw [hatt, failUpdate_attempts]
        have harith : i + 1 + t.length + 1 =
            i + (⟨i + 1, "failed", some (failMsg (env i))⟩ :: t : List AttemptInfo).length + 1 := by
          simp [List.length_cons]
          omega
        rw [harith]
        simp [List.append_assoc]
      · intro b hb
        rcases List.mem_cons.mp hb with hbt | hbr
        · subst hbt
          exact ⟨rfl, rfl⟩
        · exact hmem b hbr
      · have harith : i + (⟨i + 1, "failed", some (failMsg (env i))⟩ :: t : List AttemptInfo).length =
            i + 1 + t.length := by
          simp [List.length_cons]
          omega
        rw [harith]
        exact henv
      · intro hcon
        exact absurd hcon (List.cons_ne_nil _ _)
      · intro b hb
        cases t with
        | nil =>
          simp at hb
          have := herr0 rfl
          rw [this]
          subst hb
          simp [failUpdate]
        | cons x xs =>
          rw [List.getLast?_cons_cons] at hb
          exact herrl b hb

/-! ### Pipeline over all leads

Embedding of `EmailGenerationPipeline.process_batch` (lines 110-137) and
`process_all_leads` (lines 139-206).  `asyncio.gather` returns results in
task order, so a batch contributes one detailed result per payload in
payload order; `process_all_leads` extends `self.all_results` batch by
batch.  Each attempt of each lead performs exactly one `session.post`
network call; the `calls` field counts these.  The final summary at line
201 computes `(total_successful/total_leads)*100`, a Python division that
raises `ZeroDivisionError` when `total_leads` is zero; the `outcome` field
records whether the coroutine returns normally or raises there. -/

/-- Per-lead environment: the outcome each attempt of each payload gets. -/
def LeadEnv : Type := Payload → Nat → AttemptOutcome

/-- Embedding of `process_batch`: one detailed result per payload of the
batch, in order (the returned value of the Python function is the
sublist of successful `final_result` bodies; `self.all_results` receives
exactly this list). -/
def processBatch (maxRetries : Nat) (env : LeadEnv) (batch : List Payload) :
    List DetailedResult :=
  batch.map (fun p => sendRequestWithRetry maxRetries (env p) p)

/-- Observable outcome of one `process_all_leads` run. -/
structure PipelineRun where
  all_results : List DetailedResult
  calls : Nat
  outcome : Except String Unit
deriving Repr

/-- Embedding of `process_all_leads`: batch the payloads, run every batch
in order accumulating `all_results`, count the network calls (one per
recorded attempt), and record whether the final-summary statistics at
line 201 raise `ZeroDivisionError` (they divide by `total_leads`). -/
def processAllLeads (batchSize maxRetries : Nat) (env : LeadEnv)
    (allPayloads : List Payload) : PipelineRun :=
  { all_results := ((batchesOf allPayloads batchSize).map
      (processBatch maxRetries env)).flatten,
    calls := (((batchesOf allPayloads batchSize).map
      (processBatch maxRetries env)).flatten.map
        (fun r => r.attempts.length)).sum,
    outcome :=
      if allPayloads.length = 0 then
        Except.error "ZeroDivisionError: division by zero"
      else Except.ok () }

/-! ### Resume merge

Embedding of the resume branch of the tab-3 handler in `src/app.py`
(lines 463-468):

  existing_results = {r["lead_id"]: r for r in st.session_state.generated_emails}
  new_results = {r["lead_id"]: r for r in pipeline.all_results}
  existing_results.update(new_results)
  st.session_state.generated_emails = list(existing_results.values())

Python dicts preserve insertion order; assigning to an existing key
replaces the value in place, a new key is appended at the end.  We embed
a dict as an association list with exactly these semantics. -/

/-- Python dict assignment `d[k] = v` on an insertion-ordered dict. -/
def dictInsert (d : List (String × DetailedResult)) (k : String)
    (v : DetailedResult) : List (String × DetailedResult) :=
  if d.any (fun q => q.1 = k) then
    d.map (fun q => if q.1 = k then (k, v) else q)
  else d ++ [(k, v)]

/-- The dict comprehension keyed by the lead_id field. -/
def dictOfResults (rs : List DetailedResult) : List (String × DetailedResult) :=
  rs.foldl (fun d r => dictInsert d r.lead_id r) []

/-- `existing.update(new)`: insert every item of `new` in order. -/
def dictUpdate (dExisting dNew : List (String × DetailedResult)) :
    List (String × DetailedResult) :=
  dNew.foldl (fun d q => dictInsert d q.1 q.2) dExisting

/-- The resume merge: build both dicts, update, take the values. -/
def mergeResults (priorRs newRs : List DetailedResult) : List DetailedResult :=
  (dictUpdate (dictOfResults priorRs) (dictOfResults newRs)).map (fun q => q.2)

/-! ### Email sender

Embedding of `EmailSender` (`src/email_sender.py`).  A pandas DataFrame is
embedded as its column list plus its rows; a row carries the three fields
the class reads, each `Option String` (`none` models a NaN cell).  The
remote mailer is modelled by `BatchOutcome`, one outcome per batch index:
`ok items` stands for HTTP 200 whose JSON array is `items`; `httpFail s t`
for a response with status `s ≠ 200` and body text `t`; `exc m` for a
raised exception with message `m`.  `fileWrite` models the `json.dump`
call: `none` if it succeeds, `some m` if it raises with message `m`. -/

/-- One DataFrame row, restricted to the columns the class reads. -/
structure SendRow where
  email_id : Option String
  email_subject : Option String
  email_body : Option String
deriving Repr, DecidableEq

/-- A DataFrame: its column names and its rows. -/
structure SendFrame where
  columns : List String
  rows : List SendRow
deriving Repr, DecidableEq

/-- The guard `all(col in df.columns for col in [...])` of lines 46 and
115. -/
def hasRequiredCols (df : SendFrame) : Bool :=
  ["email_id", "email_subject", "email_body"].all
    (fun c => df.columns.contains c)

/-- One email payload built at lines 57-61. -/
structure EmailPayload where
  email : List String
  subject : String
  body : String
deriving Repr, DecidableEq

/-- The per-row skip of lines 54-55 followed by the append of lines
57-61: a payload is produced iff no required cell is NaN. -/
def rowPayload (r : SendRow) : Option EmailPayload :=
  match r.email_id, r.email_subject, r.email_body with
  | some e, some s, some b => some ⟨[e], s, b⟩
  | _, _, _ => none

/-- One element of the list `send_email_batch` returns: a dict that may
carry an error string and a status code. -/
structure ItemResult where
  error : Option String
  status_code : Option Nat
deriving Repr, DecidableEq

/-- Outcome of the one `session.post` call a batch performs. -/
inductive BatchOutcome where
  | ok (items : List ItemResult)
  | httpFail (status : Nat) (errorText : String)
  | exc (msg : String)
deriving Repr, DecidableEq

/-- Embedding of `send_email_batch` (lines 21-34): on HTTP 200 the parsed
JSON array is returned; on a non-200 response or a raised exception a
SINGLE one-element error list is returned for the whole batch. -/
def send_email_batch (o : BatchOutcome) : List ItemResult :=
  match o with
  | .ok items => items
  | .httpFail s t => [⟨some ("Failed to send batch: " ++ t), some s⟩]
  | .exc m => [⟨some m, some 500⟩]

/-- The `results` dict of lines 68-74 (the timestamp string is omitted). -/
structure SendResults where
  total_emails : Nat
  successful : Nat
  failed : Nat
  errors : List String
deriving Repr, DecidableEq

/-- The inner body of the result-processing loop (lines 87-91): an item
dict with an error key counts as one failure and appends its error
string, any other item counts as one success. -/
def countItem (a : SendResults) (r : ItemResult) : SendResults :=
  match r.error with
  | some e => { a with failed := a.failed + 1, errors := a.errors ++ [e] }
  | none => { a with successful := a.successful + 1 }

/-- The inner loop `for result in batch_result` (line 86). -/
def countBatch (acc : SendResults) (br : List ItemResult) : SendResults :=
  br.foldl countItem acc

/-- The result-processing loop of lines 85-91 over all batch results. -/
def countResults (batchResults : List (List ItemResult))
    (init : SendResults) : SendResults :=
  batchResults.foldl countBatch init

/-- Embedding of `send_emails` (lines 36-103).  Returns the number of
batch network calls performed paired with either the raised `ValueError`
(line 47) or the returned `results` dict.  The `env` gives each batch
index its remote outcome; `fileWrite` is the outcome of the `json.dump`
at lines 94-96, whose exception is caught at line 100 and appended to
`errors` before the dict is returned. -/
def sendPayloads (df : SendFrame) : List EmailPayload :=
  df.rows.filterMap rowPayload

/-- The batch results gathered at lines 79-82: one `send_email_batch`
call per batch, whose outcome the environment chooses by batch index. -/
def sendBatchResults (df : SendFrame) (batchSize : Nat)
    (env : Nat → BatchOutcome) : List (List ItemResult) :=
  (List.range (batchesOf (sendPayloads df) batchSize).length).map
    (fun i => send_email_batch (env i))

/-- The `results` dict as it stands after the counting loop. -/
def sendResultsOf (df : SendFrame) (batchSize : Nat)
    (env : Nat → BatchOutcome) : SendResults :=
  countResults (sendBatchResults df batchSize env)
    ⟨(sendPayloads df).length, 0, 0, []⟩

def sendEmailsRun (df : SendFrame) (batchSize : Nat) (env : Nat → BatchOutcome)
    (fileWrite : Option String) : Nat × Except String SendResults :=
  if hasRequiredCols df then
    ((batchesOf (sendPayloads df) batchSize).length,
      match fileWrite with
      | some m => Except.ok { sendResultsOf df batchSize env with
          errors := (sendResultsOf df batchSize env).errors ++ [m] }
      | none => Except.ok (sendResultsOf df batchSize env))
  else
    (0, Except.error
      "DataFrame must contain email_id, email_subject, and email_body columns")

/-- The dict `get_sending_status` returns (lines 123-129). -/
structure SendingStatus where
  total_leads : Nat
  valid_emails : Nat
  valid_subjects : Nat
  valid_bodies : Nat
  ready_to_send : Nat
deriving Repr, DecidableEq

/-- `df[col].notna().sum()`: the number of non-NaN cells of a column. -/
def notnaSum (f : SendRow → Option String) (rows : List SendRow) : Nat :=
  (rows.map (fun r => if (f r).isSome then 1 else 0)).sum

/-- Embedding of `get_sending_status` (lines 105-129); Python
`min(a, b, c)` is `min (min a b) c`. -/
def get_sending_status (df : SendFrame) : Except String SendingStatus :=
  if hasRequiredCols df then
    Except.ok
      { total_leads := df.rows.length,
        valid_emails := notnaSum (fun r => r.email_id) df.rows,
        valid_subjects := notnaSum (fun r => r.email_subject) df.rows,
        valid_bodies := notnaSum (fun r => r.email_body) df.rows,
        ready_to_send :=
          Nat.min (Nat.min (notnaSum (fun r => r.email_id) df.rows)
              (notnaSum (fun r => r.email_subject) df.rows))
            (notnaSum (fun r => r.email_body) df.rows) }
  else
    Except.error
      "DataFrame must contain email_id, email_subject, and email_body columns"

/-! ### A structurally recursive evaluator for `batchesOf`

`pyRangeGo` is defined by well-founded recursion and therefore does not
reduce inside the kernel; `chunksF` is a fuel-indexed structural
equivalent used to evaluate `batchesOf` on concrete inputs. -/

def chunksF (B : Nat) : Nat → List α → List (List α)
  | 0, _ => []
  | _ + 1, [] => []
  | fuel + 1, x :: xs => (x :: xs).take B :: chunksF B fuel (xs.drop (B - 1))

theorem batchesOf_eval (B : Nat) (hB : 1 ≤ B) :
    ∀ fuel (l : List α), l.length ≤ fuel → batchesOf l B = chunksF B fuel l := by
  intro fuel
  induction fuel with
  | zero =>
    intro l hl
    have hnil : l = [] := List.eq_nil_of_length_eq_zero (by omega)
    subst hnil
    rw [batchesOf_nil]
    rfl
  | succ n ih =>
    intro l hl
    cases l with
    | nil =>
      rw [batchesOf_nil]
      rfl
    | cons x xs =>
      rw [batchesOf_cons (x :: xs) B hB (List.cons_ne_nil x xs)]
      have hdropeq : (x :: xs).drop B = xs.drop (B - 1) := by
        obtain ⟨C, hC⟩ : ∃ C, B = C + 1 := ⟨B - 1, by omega⟩
        rw [hC, List.drop_succ_cons]
        norm_num
      show (x :: xs).take B :: batchesOf ((x :: xs).drop B) B =
        (x :: xs).take B :: chunksF B n (xs.drop (B - 1))
      rw [hdropeq]
      congr 1
      apply ih
      have hlendrop : (xs.drop (B - 1)).length = xs.length - (B - 1) :=
        List.length_drop _ _
      simp only [List.length_cons] at hl
      omega

/-! ### Counting lemmas for the dispatch result loop -/

theorem countItem_total (a : SendResults) (r : ItemResult) :
    (countItem a r).total_emails = a.total_emails := by
  cases hr : r.error <;> simp [countItem, hr]

theorem countBatch_counts (br : List ItemResult) :
    ∀ acc : SendResults,
      (countBatch acc br).failed =
        acc.failed + br.countP (fun r => r.error.isSome) ∧
      (countBatch acc br).successful =
        acc.successful + br.countP (fun r => r.error.isNone) ∧
      (countBatch acc br).total_emails = acc.total_emails := by
  induction br with
  | nil => intro acc; simp [countBatch]
  | cons r rest ih =>
    intro acc
    have hstep := ih (countItem acc r)
    rw [countBatch, List.foldl_cons] at *
    obtain ⟨h1, h2, h3⟩ := hstep
    refine ⟨?_, ?_, ?_⟩
    · rw [show rest.foldl countItem (countItem acc r) = countBatch (countItem acc r) rest from rfl] at *
      rw [h1, List.countP_cons]
      cases hr : r.error <;> simp [countItem, hr] <;> omega
    · rw [show rest.foldl countItem (countItem acc r) = countBatch (countItem acc r) rest from rfl] at *
      rw [h2, List.countP_cons]
      cases hr : r.error <;> simp [countItem, hr] <;> omega
    · rw [show rest.foldl countItem (countItem acc r) = countBatch (countItem acc r) rest from rfl] at *
      rw [h3, countItem_total]

theorem countResults_counts (brs : List (List ItemResult)) :
    ∀ init : SendResults,
      (countResults brs init).failed =
        init.failed + (brs.map (fun br => br.countP (fun r => r.error.isSome))).sum ∧
      (countResults brs init).successful =
        init.successful + (brs.map (fun br => br.countP (fun r => r.error.isNone))).sum ∧
      (countResults brs init).total_emails = init.total_emails := by
  induction brs with
  | nil => intro init; simp [countResults]
  | cons br rest ih =>
    intro init
    have hb := countBatch_counts br init
    have hr := ih (countBatch init br)
    rw [countResults, List.foldl_cons] at *
    rw [show rest.foldl countBatch (countBatch init br) = countResults rest (countBatch init br) from rfl] at *
    obtain ⟨hb1, hb2, hb3⟩ := hb
    obtain ⟨hr1, hr2, hr3⟩ := hr
    refine ⟨?_, ?_, ?_⟩
    · rw [hr1, hb1, List.map_cons, List.sum_cons]
      omega
    · rw [hr2, hb2, List.map_cons, List.sum_cons]
      omega
    · rw [hr3, hb3]

theorem notnaSum_eq_countP (f : SendRow → Option String) (rows : List SendRow) :
    notnaSum f rows = rows.countP (fun r => (f r).isSome) := by
  induction rows with
  | nil => simp [notnaSum]
  | cons r rest ih =>
    rw [notnaSum, List.map_cons, List.sum_cons, List.countP_cons]
    rw [show (rest.map (fun r => if (f r).isSome then 1 else 0)).sum = notnaSum f rest from rfl, ih]
    cases hr : (f r).isSome <;> simp [hr] <;> omega

/-! ## Claim theorems -/

/-- C4: for every input list of N payloads and batch size B at least 1,
both pipelines (which build batches by the identical slicing expression
embedded as `batchesOf`) produce exactly the ceiling of N/B batches
(`(N + (B-1)) / B`), each of size B except possibly a shorter nonempty
last one, and concatenating the batches in order yields the input list. -/
theorem C4_batching (l : List α) (B : Nat) (hB : 1 ≤ B) :
    (batchesOf l B).length = (l.length + (B - 1)) / B ∧
    (batchesOf l B).flatten = l ∧
    (∀ b ∈ (batchesOf l B).dropLast, b.length = B) ∧
    (∀ b ∈ batchesOf l B, b.length ≤ B ∧ b ≠ []) :=
  batchesOf_props B hB l.length l (Nat.le_refl _)

/-- C4 witness: at the concrete input [1,2,3] with B = 2 the theorem
yields 2 batches whose concatenation is the input. -/
theorem C4_batching_witness :
    (batchesOf [1, 2, 3] 2).length = 2 ∧ (batchesOf [1, 2, 3] 2).flatten = [1, 2, 3] := by
  constructor
  · exact ((C4_batching [1, 2, 3] 2 (by omega)).1).trans (by norm_num)
  · exact (C4_batching [1, 2, 3] 2 (by omega)).2.1

/-- C1 (amended): the attempts list of the detailed result has length
between 1 and `max_retries + 1`, and IF the status is failed THEN the
length equals `max_retries + 1`.  The converse direction claimed by the
spec (length `max_retries + 1` ONLY IF failed) is refuted by
`C1_counterexample`: a run whose final allowed attempt succeeds also has
`max_retries + 1` attempts. -/
theorem C1_attempt_count_bounds (maxRetries : Nat) (env : Nat → AttemptOutcome)
    (p : Payload) :
    1 ≤ (sendRequestWithRetry maxRetries env p).attempts.length ∧
    (sendRequestWithRetry maxRetries env p).attempts.length ≤ maxRetries + 1 ∧
    ((sendRequestWithRetry maxRetries env p).status = "failed" →
      (sendRequestWithRetry maxRetries env p).attempts.length = maxRetries + 1) := by
  have hb := retryGo_length_bounds env maxRetries 0 (initResult p)
  have hinit : (initResult p).attempts.length = 0 := rfl
  simp only [sendRequestWithRetry]
  refine ⟨by omega, by omega, fun h => ?_⟩
  have hf := retryGo_failed_length env maxRetries 0 (initResult p) h
  omega

/-- C1 witness: with one retry and every attempt timing out, the status
is failed and the theorem gives exactly 2 attempts. -/
theorem C1_attempt_count_bounds_witness :
    (sendRequestWithRetry 1 (fun _ => AttemptOutcome.timeout)
      ⟨"lead-w1", "Wit One", "Acme"⟩).attempts.length = 1 + 1 :=
  (C1_attempt_count_bounds 1 (fun _ => AttemptOutcome.timeout)
    ⟨"lead-w1", "Wit One", "Acme"⟩).2.2 rfl

/-- Environment for the C1 counterexample: attempt 0 gets HTTP 500,
every later attempt gets HTTP 200. -/
def envC1 : Nat → AttemptOutcome :=
  fun n => if n = 0 then AttemptOutcome.httpError 500 else AttemptOutcome.ok "generated email"

def pC1 : Payload := ⟨"lead-1", "Alice Doe", "Acme"⟩

/-- C1 counterexample: with `max_retries = 1`, a first attempt that fails
with HTTP 500 followed by a successful second attempt produces an
attempts list of length `max_retries + 1 = 2` whose status is NOT failed,
refuting the claim that the length equals `max_retries + 1` only if the
status is failed. -/
theorem C1_counterexample :
    (sendRequestWithRetry 1 envC1 pC1).attempts.length = 1 + 1 ∧
    ¬ (sendRequestWithRetry 1 envC1 pC1).status = "failed" := by
  constructor
  · rfl
  · decide

/-- C2: calling `process_all_leads` on an empty payload list leaves the
accumulated result list empty and performs no network call, but the
coroutine does NOT complete without error: the final summary at
`mail_generation.py` line 201 computes
`(total_successful/total_leads)*100` with `total_leads = 0` and raises
`ZeroDivisionError`.  This contradicts the claim and the spec sentence
built from it; the spec is the evident intent and the division is a slip,
so the claim is classified as a code bug with this theorem exhibiting the
divergence. -/
theorem C2_empty_input (batchSize maxRetries : Nat) (env : LeadEnv) :
    (processAllLeads batchSize maxRetries env []).all_results = [] ∧
    (processAllLeads batchSize maxRetries env []).calls = 0 ∧
    (processAllLeads batchSize maxRetries env []).outcome =
      Except.error "ZeroDivisionError: division by zero" := by
  refine ⟨?_, ?_, ?_⟩ <;> simp [processAllLeads, batchesOf_nil]

/-- C5: whenever the detailed result has status success, exactly one
attempt record has status success, it is the last record of the attempts
list, and every earlier record has status failed. -/
theorem C5_single_success (maxRetries : Nat) (env : Nat → AttemptOutcome)
    (p : Payload)
    (h : (sendRequestWithRetry maxRetries env p).status = "success") :
    (sendRequestWithRetry maxRetries env p).attempts.countP
        (fun a => a.status == "success") = 1 ∧
    (∃ a, (sendRequestWithRetry maxRetries env p).attempts.getLast? = some a ∧
      a.status = "success") ∧
    (∀ b ∈ (sendRequestWithRetry maxRetries env p).attempts.dropLast,
      b.status = "failed") := by
  have hinit : (initResult p).status ≠ "success" := by simp [initResult]
  simp only [sendRequestWithRetry] at h ⊢
  obtain ⟨t, body, hatt, hmem, henv, hfin, herr0, herrl⟩ :=
    retryGo_success_structure env maxRetries 0 (initResult p) hinit h
  have hattempts0 : (initResult p).attempts = [] := rfl
  rw [hattempts0, List.nil_append] at hatt
  refine ⟨?_, ?_, ?_⟩
  · rw [hatt, List.countP_append]
    have ht0 : t.countP (fun a => a.status == "success") = 0 :=
      List.countP_eq_zero.mpr (fun b hb => by simp [(hmem b hb).1])
    rw [ht0]
    simp
  · exact ⟨⟨0 + t.length + 1, "success", none⟩, by rw [hatt]; exact List.getLast?_concat t, rfl⟩
  · intro b hb
    rw [hatt, List.dropLast_concat] at hb
    exact (hmem b hb).1

/-- C5 witness: a timeout followed by a success yields exactly one
success record. -/
theorem C5_single_success_witness :
    (sendRequestWithRetry 2
      (fun n => if n = 0 then AttemptOutcome.timeout else AttemptOutcome.ok "body-five")
      ⟨"lead-5", "Eve Fay", "Initech"⟩).attempts.countP
        (fun a => a.status == "success") = 1 :=
  (C5_single_success 2
    (fun n => if n = 0 then AttemptOutcome.timeout else AttemptOutcome.ok "body-five")
    ⟨"lead-5", "Eve Fay", "Initech"⟩ rfl).1

/-- C10: when the detailed result has status success, the top-level error
field is not reset by the success branch: it is none when the first
attempt succeeded, and otherwise equals the error recorded on the most
recent (second to last) failed attempt; meanwhile final_result holds the
body of the successful response the environment returned on the last
attempt. -/
theorem C10_error_not_reset (maxRetries : Nat) (env : Nat → AttemptOutcome)
    (p : Payload)
    (h : (sendRequestWithRetry maxRetries env p).status = "success") :
    ((sendRequestWithRetry maxRetries env p).attempts.dropLast = [] →
      (sendRequestWithRetry maxRetries env p).error = none) ∧
    (∀ b, (sendRequestWithRetry maxRetries env p).attempts.dropLast.getLast? = some b →
      (sendRequestWithRetry maxRetries env p).error = b.error ∧
        b.status = "failed" ∧ b.error.isSome = true) ∧
    (∃ body, env ((sendRequestWithRetry maxRetries env p).attempts.length - 1) =
        AttemptOutcome.ok body ∧
      (sendRequestWithRetry maxRetries env p).final_result = some body) := by
  have hinit : (initResult p).status ≠ "success" := by simp [initResult]
  simp only [sendRequestWithRetry] at h ⊢
  obtain ⟨t, body, hatt, hmem, henv, hfin, herr0, herrl⟩ :=
    retryGo_success_structure env maxRetries 0 (initResult p) hinit h
  have hattempts0 : (initResult p).attempts = [] := rfl
  rw [hattempts0, List.nil_append] at hatt
  have hdl : (retryGo env 0 maxRetries (initResult p)).attempts.dropLast = t := by
    rw [hatt, List.dropLast_concat]
  refine ⟨?_, ?_, ?_⟩
  · intro ht
    rw [hdl] at ht
    have := herr0 ht
    rw [this]
    rfl
  · intro b hb
    rw [hdl] at hb
    have hbmem : b ∈ t := List.mem_of_getLast?_eq_some hb
    exact ⟨herrl b hb, (hmem b hbmem).1, (hmem b hbmem).2⟩
  · refine ⟨body, ?_, hfin⟩
    have hlen : (retryGo env 0 maxRetries (initResult p)).attempts.length = t.length + 1 := by
      rw [hatt, List.length_append, List.length_singleton]
    rw [hlen]
    simpa using henv

/-- C10 witness: HTTP 502 then success leaves the error field holding the
HTTP 502 message of the first (failed) attempt. -/
theorem C10_error_not_reset_witness :
    (sendRequestWithRetry 1
      (fun n => if n = 0 then AttemptOutcome.httpError 502 else AttemptOutcome.ok "tenth-body")
      ⟨"lead-10", "Jay Kay", "Umbrella"⟩).error =
      (⟨1, "failed", some "HTTP 502"⟩ : AttemptInfo).error :=
  ((C10_error_not_reset 1
    (fun n => if n = 0 then AttemptOutcome.httpError 502 else AttemptOutcome.ok "tenth-body")
    ⟨"lead-10", "Jay Kay", "Umbrella"⟩ rfl).2.1
      ⟨1, "failed", some "HTTP 502"⟩ rfl).1

/-- C6: the resume merge combines result lists by lead_id with the newer
run winning wholesale: for a prior list holding records a, b and a new
run producing records b2 (same identifier as b) and c (a fresh
identifier), the merged list keeps a unchanged, replaces b by b2 in
place (attempt lists are not combined: the record is replaced whole),
and appends c. -/
theorem C6_resume_merge (a b b2 c : DetailedResult)
    (hab : a.lead_id ≠ b.lead_id) (hb2 : b2.lead_id = b.lead_id)
    (hca : c.lead_id ≠ a.lead_id) (hcb : c.lead_id ≠ b.lead_id) :
    mergeResults [a, b] [b2, c] = [a, b2, c] := by
  simp only [mergeResults, dictOfResults, dictUpdate, List.foldl_cons, List.foldl_nil]
  simp [dictInsert, hab, hb2, hca, hcb, Ne.symm hab, Ne.symm hca, Ne.symm hcb]

def drA : DetailedResult :=
  ⟨"A", "Alice", "Acme", "success", [], some "bodyA", none, ⟨"A", "Alice", "Acme"⟩⟩
def drB : DetailedResult :=
  ⟨"B", "Bob", "Bcme", "failed",
    [⟨1, "failed", some "Timeout"⟩], none, some "Timeout", ⟨"B", "Bob", "Bcme"⟩⟩
def drB2 : DetailedResult :=
  ⟨"B", "Bob", "Bcme", "success",
    [⟨1, "success", none⟩], some "bodyB", none, ⟨"B", "Bob", "Bcme"⟩⟩
def drC : DetailedResult :=
  ⟨"C", "Cara", "Ccme", "success", [⟨1, "success", none⟩], some "bodyC", none,
    ⟨"C", "Cara", "Ccme"⟩⟩

/-- C6 witness: concrete records with identifiers A (success), B
(failed), then a new run with B (success, fresh attempt list) and C. -/
theorem C6_resume_merge_witness :
    mergeResults [drA, drB] [drB2, drC] = [drA, drB2, drC] :=
  C6_resume_merge drA drB drB2 drC (by decide) (by decide) (by decide) (by decide)

/-- C8: for every DataFrame with the three required columns,
`get_sending_status` returns the row count as total_leads, the per-field
non-null counts, and ready_to_send equal to the minimum of the three
counts. -/
theorem C8_sending_status (df : SendFrame) (h : hasRequiredCols df = true) :
    get_sending_status df = Except.ok
      { total_leads := df.rows.length,
        valid_emails := df.rows.countP (fun r => r.email_id.isSome),
        valid_subjects := df.rows.countP (fun r => r.email_subject.isSome),
        valid_bodies := df.rows.countP (fun r => r.email_body.isSome),
        ready_to_send :=
          Nat.min (Nat.min (df.rows.countP (fun r => r.email_id.isSome))
              (df.rows.countP (fun r => r.email_subject.isSome)))
            (df.rows.countP (fun r => r.email_body.isSome)) } := by
  simp [get_sending_status, h, notnaSum_eq_countP]

def dfC8 : SendFrame :=
  ⟨["email_id", "email_subject", "email_body"],
   [⟨some "a@x.com", some "s1", some "b1"⟩,
    ⟨some "b@x.com", none, some "b2"⟩,
    ⟨some "c@x.com", some "s3", some "b3"⟩,
    ⟨none, none, none⟩]⟩

/-- C8 witness: the spec example — 3 valid addresses, 2 valid subjects,
3 valid bodies out of 4 rows give ready_to_send = 2. -/
theorem C8_sending_status_witness :
    get_sending_status dfC8 = Except.ok ⟨4, 3, 2, 3, 2⟩ :=
  (C8_sending_status dfC8 rfl).trans (by rfl)

/-- C9: `send_emails` raises only the missing-column ValueError, before
any network call (zero batch calls are made in that case); whenever the
required columns are present the call returns a results dict normally,
whatever the remote outcomes are, and a file-write error message is
appended to the errors list of the returned dict rather than raised. -/
theorem C9_exception_policy (df : SendFrame) (B : Nat) (env : Nat → BatchOutcome)
    (fw : Option String) :
    (hasRequiredCols df = false →
      sendEmailsRun df B env fw =
        (0, Except.error
          "DataFrame must contain email_id, email_subject, and email_body columns")) ∧
    (hasRequiredCols df = true →
      ∃ r : SendResults, (sendEmailsRun df B env fw).2 = Except.ok r ∧
        ∀ m, fw = some m → m ∈ r.errors) := by
  constructor
  · intro h
    simp [sendEmailsRun, h]
  · intro h
    cases fw with
    | none =>
      refine ⟨sendResultsOf df B env, by simp [sendEmailsRun, h], ?_⟩
      intro m hm
      exact Option.noConfusion hm
    | some m0 =>
      refine ⟨{ sendResultsOf df B env with
          errors := (sendResultsOf df B env).errors ++ [m0] }, by simp [sendEmailsRun, h], ?_⟩
      intro m hm
      injection hm with hm0
      subst hm0
      simp

def dfC9 : SendFrame :=
  ⟨["email_id", "email_subject"], [⟨some "x@y.z", some "s", some "b"⟩]⟩

/-- C9 witness: a frame missing the email_body column makes the call
return the ValueError with zero network calls. -/
theorem C9_exception_policy_witness :
    sendEmailsRun dfC9 3 (fun _ => BatchOutcome.ok []) none =
      (0, Except.error
        "DataFrame must contain email_id, email_subject, and email_body columns") :=
  (C9_exception_policy dfC9 3 (fun _ => BatchOutcome.ok []) none).1 rfl

def dfC3 : SendFrame :=
  ⟨["email_id", "email_subject", "email_body"],
   [⟨some "a@x.com", some "s1", some "b1"⟩,
    ⟨some "b@x.com", some "s2", some "b2"⟩,
    ⟨some "c@x.com", some "s3", some "b3"⟩]⟩

/-- Remote behaviour for the C3 counterexample: the first batch call
raises an exception, every later batch call succeeds with one accepted
item. -/
def envC3 : Nat → BatchOutcome :=
  fun i => if i = 0 then BatchOutcome.exc "boom" else BatchOutcome.ok [⟨none, none⟩]

/-- C3 counterexample: three payloads with batch size 2 give a first
batch of K = 2 emails; its transport failure is recorded as ONE failure
(failed = 1, a single error string), not as a failure for each of the 2
items, while the second batch is still processed (successful = 1).  This
refutes the claim that a batch-level failure is recorded once per item
of the batch. -/
theorem C3_counterexample :
    ((batchesOf (sendPayloads dfC3) 2).getD 0 []).length = 2 ∧
    sendEmailsRun dfC3 2 envC3 none =
      (2, Except.ok ⟨3, 1, 1, ["boom"]⟩) := by
  have hb : batchesOf (sendPayloads dfC3) 2 =
      [[⟨["a@x.com"], "s1", "b1"⟩, ⟨["b@x.com"], "s2", "b2"⟩],
       [⟨["c@x.com"], "s3", "b3"⟩]] := by
    rw [batchesOf_eval 2 (by omega) 3 (sendPayloads dfC3) (by decide)]
    rfl
  constructor
  · rw [hb]
    rfl
  · simp only [sendEmailsRun, sendResultsOf, sendBatchResults]
    rw [hb]
    rfl

/-- C3 (amended): a batch-level failure (non-200 status or transport
exception) is recorded as exactly ONE failure entry for the whole batch,
regardless of how many emails the batch contains, and the counting is a
per-batch sum so every other batch still contributes its own results
(no batch aborts the others). -/
theorem C3_batch_failure (df : SendFrame) (B : Nat) (env : Nat → BatchOutcome)
    (fw : Option String) (h : hasRequiredCols df = true) :
    (sendEmailsRun df B env fw).2.toOption.map (fun r => r.failed) =
      some (((sendBatchResults df B env).map
        (fun br => br.countP (fun it => it.error.isSome))).sum) ∧
    (sendEmailsRun df B env fw).2.toOption.map (fun r => r.successful) =
      some (((sendBatchResults df B env).map
        (fun br => br.countP (fun it => it.error.isNone))).sum) ∧
    (∀ o : BatchOutcome, (∀ items, o ≠ BatchOutcome.ok items) →
      (send_email_batch o).countP (fun it => it.error.isSome) = 1 ∧
      (send_email_batch o).countP (fun it => it.error.isNone) = 0) := by
  obtain ⟨hf, hs, _⟩ := countResults_counts (sendBatchResults df B env)
    ⟨(sendPayloads df).length, 0, 0, []⟩
  have hfold : countResults (sendBatchResults df B env)
      ⟨(sendPayloads df).length, 0, 0, []⟩ = sendResultsOf df B env := rfl
  rw [hfold] at hf hs
  rw [show (⟨(sendPayloads df).length, 0, 0, []⟩ : SendResults).failed = 0 from rfl,
    Nat.zero_add] at hf
  rw [show (⟨(sendPayloads df).length, 0, 0, []⟩ : SendResults).successful = 0 from rfl,
    Nat.zero_add] at hs
  refine ⟨?_, ?_, ?_⟩
  · cases fw with
    | none =>
      simp [sendEmailsRun, h, Except.toOption]
      omega
    | some m =>
      simp [sendEmailsRun, h, Except.toOption]
      omega
  · cases fw with
    | none =>
      simp [sendEmailsRun, h, Except.toOption]
      omega
    | some m =>
      simp [sendEmailsRun, h, Except.toOption]
      omega
  · intro o ho
    cases o with
    | ok items => exact absurd rfl (ho items)
    | httpFail s t => constructor <;> rfl
    | exc m => constructor <;> rfl

def dfC3w : SendFrame :=
  ⟨["email_id", "email_subject", "email_body"],
   [⟨some "w@x.com", some "ws", some "wb"⟩]⟩

/-- C3 witness: one payload, one batch whose call returns HTTP 503 —
the returned dict reports exactly one failure. -/
theorem C3_batch_failure_witness :
    (sendEmailsRun dfC3w 5 (fun _ => BatchOutcome.httpFail 503 "down") none).2.toOption.map
      (fun r => r.failed) = some 1 := by
  have h := (C3_batch_failure dfC3w 5 (fun _ => BatchOutcome.httpFail 503 "down") none rfl).1
  refine h.trans ?_
  have hb : batchesOf (sendPayloads dfC3w) 5 = [[⟨["w@x.com"], "ws", "wb"⟩]] := by
    rw [batchesOf_eval 5 (by omega) 1 (sendPayloads dfC3w) (by decide)]
    rfl
  rw [show sendBatchResults dfC3w 5 (fun _ => BatchOutcome.httpFail 503 "down") =
    (List.range (batchesOf (sendPayloads dfC3w) 5).length).map
      (fun i => send_email_batch ((fun _ => BatchOutcome.httpFail 503 "down") i)) from rfl]
  rw [hb]
  rfl
